import Mathlib

/-!
Verification development for the stock-tech-patterns service: a shallow
embedding of the pattern-detection processor (`processor.analyze_patterns`),
the result sink (`output_handler.send_to_output`) and the RabbitMQ consumer
(`queue_handler._connect_to_rabbitmq`, `queue_handler.callback`), with
theorems settling the specified properties.

Numeric model: the `close` series is carried as exact rationals plus
explicit markers for NaN and for IEEE negative zero (`FVal`), mirroring
float64 semantics at the points the code relies on them: every comparison
involving NaN is false, `-0.0` compares equal to `0.0`, and a division
whose divisor is zero yields `+inf` (positive numerator over `+0.0`,
comparing false against 0.02), `-inf` (positive numerator over `-0.0`,
comparing TRUE against 0.02) or NaN (zero numerator, comparing false).
-/

namespace StockPatterns

/-- A float64 cell of the `close` column: a finite value (idealised as an
exact rational, with `fin 0` standing for `+0.0`), the IEEE negative zero
`-0.0` (numerically equal to zero but dividing to `-inf`), or NaN (the
value pandas inserts for a missing field). -/
inductive FVal where
  | fin (q : ℚ)
  | negZero
  | nan
  deriving DecidableEq, Repr, Inhabited

/-- The numeric value a cell compares as: `-0.0` compares as `0`; NaN has
none (every comparison with it is false). -/
def FVal.val? : FVal → Option ℚ
  | .fin q => some q
  | .negZero => some 0
  | .nan => none

/-- IEEE `<` on float64 cells: numeric comparison, any comparison with NaN
is false, and `-0.0` compares as zero. -/
def FVal.lt (a b : FVal) : Bool :=
  match a.val?, b.val? with
  | some x, some y => decide (x < y)
  | _, _ => false

/-- IEEE `==` on float64 cells: numeric equality (`-0.0 == 0.0` is true);
NaN is not equal to anything, itself included. -/
def FVal.eqIEEE (a b : FVal) : Bool :=
  match a.val?, b.val? with
  | some x, some y => decide (x = y)
  | _, _ => false

/-- Unary negation (`-close_prices`): IEEE negation flips the sign bit, so
`-(+0.0) = -0.0` and `-(-0.0) = +0.0`; the negation of NaN is NaN. -/
def FVal.neg : FVal → FVal
  | .fin a => if a = 0 then .negZero else .fin (-a)
  | .negZero => .fin 0
  | .nan => .nan

/-- Plateau scan inside scipy `_local_maxima_1d`: starting from `ia`,
advance while `ia < imax` and `x[ia] == x[i]` (IEEE equality with the
plateau value `v`).  `fuel` is a structural bound; the callers pass enough
fuel that it never runs out. -/
def plateauEnd (x : List FVal) (imax : Nat) (v : FVal) : Nat → Nat → Nat
  | 0, ia => ia
  | fuel + 1, ia =>
      if ia < imax && FVal.eqIEEE (x.getD ia .nan) v then
        plateauEnd x imax v fuel (ia + 1)
      else ia

/-- Main loop of scipy `_local_maxima_1d` (what `find_peaks` calls with no
filtering arguments): scan `i` from 1 to `imax - 1`; when `x[i-1] < x[i]`,
scan the plateau of values equal to `x[i]`; if the sample after the plateau
is strictly smaller, record the plateau midpoint `(left + right) / 2`
(floor) and resume after the plateau. -/
def peaksLoop (x : List FVal) (imax : Nat) : Nat → Nat → List Nat → List Nat
  | 0, _, acc => acc
  | fuel + 1, i, acc =>
      if i < imax then
        if FVal.lt (x.getD (i - 1) .nan) (x.getD i .nan) then
          let ia := plateauEnd x imax (x.getD i .nan) imax (i + 1)
          if FVal.lt (x.getD ia .nan) (x.getD i .nan) then
            peaksLoop x imax fuel (ia + 1) (acc ++ [(i + (ia - 1)) / 2])
          else
            peaksLoop x imax fuel (i + 1) acc
        else
          peaksLoop x imax fuel (i + 1) acc
      else acc

/-- `scipy.signal.find_peaks(x)[0]` with default arguments: the indices of
local maxima (plateau midpoints), boundaries excluded. -/
def find_peaks (x : List FVal) : List Nat :=
  peaksLoop x (x.length - 1) x.length 1 []

/-- Lift a rational series into the float64 cell model. -/
def toF (q : List ℚ) : List FVal := q.map FVal.fin

/-- Strict interior local maximum at `j`, the notion the specification
describes: both neighbours exist and are strictly below `x[j]`. -/
def strictPeakAt (x : List FVal) (j : Nat) : Prop :=
  0 < j ∧ j + 1 < x.length ∧
    FVal.lt (x.getD (j - 1) .nan) (x.getD j .nan) = true ∧
    FVal.lt (x.getD (j + 1) .nan) (x.getD j .nan) = true

instance (x : List FVal) (j : Nat) : Decidable (strictPeakAt x j) := by
  unfold strictPeakAt; infer_instance

/-- Strict interior local minimum at `j`: both neighbours exist and are
strictly above `x[j]`. -/
def strictValleyAt (x : List FVal) (j : Nat) : Prop :=
  0 < j ∧ j + 1 < x.length ∧
    FVal.lt (x.getD j .nan) (x.getD (j - 1) .nan) = true ∧
    FVal.lt (x.getD j .nan) (x.getD (j + 1) .nan) = true

instance (x : List FVal) (j : Nat) : Decidable (strictValleyAt x j) := by
  unfold strictValleyAt; infer_instance

/-- No two adjacent samples are IEEE-equal (a plateau-free series). -/
def noAdjEq (x : List FVal) : Prop :=
  ∀ k < x.length - 1, FVal.eqIEEE (x.getD k .nan) (x.getD (k + 1) .nan) = false

instance (x : List FVal) : Decidable (noAdjEq x) := by
  unfold noAdjEq; infer_instance

example : find_peaks (toF [1, 3, 1, 3, 1]) = [1, 3] := by decide
example : find_peaks ((toF [1, 3, 1, 3, 1]).map FVal.neg) = [2] := by decide
example : find_peaks (toF [0, 1, 1, 0]) = [1] := by decide
example : find_peaks (toF [0, 1, 1]) = [] := by decide
example : find_peaks [FVal.fin 1, FVal.nan] = [] := by decide

/-! ## Detection core (`processor.analyze_patterns`, lines 51-94) -/

/-- Fancy indexing `close_prices[idxs]`: the values of the series at a list
of indices. -/
def valuesAt (close : List FVal) (idxs : List Nat) : List FVal :=
  idxs.map fun i => close.getD i .nan

/-- The value of the float64 expression `np.abs(a - b) / b < 0.02` at the
cells `a` (most recent extremum) and `b` (second most recent, also the
divisor).  The divisor is the signed value `b`, not `np.abs(b)`.  Division
by a zero makes numpy warn, not raise, and the sign of the zero decides
the outcome: the numerator `np.abs(a - b)` is nonnegative, so
- `b = +0.0`: the quotient is `+inf` (numerator positive) or NaN
  (numerator zero), either comparing false against `0.02`;
- `b = -0.0`: the quotient is `-inf` when the numerator is positive —
  comparing TRUE against `0.02` — and NaN (false) when `a` is also
  numerically zero;
- a `-0.0` numerator cell behaves as `0` inside `a - b` and `np.abs`;
- any NaN operand yields NaN, comparing false. -/
def ieeeDoubleCheck : FVal → FVal → Bool
  | .fin a, .fin b => if b = 0 then false else decide (|a - b| / b < 1 / 50)
  | .fin a, .negZero => decide (a ≠ 0)
  | .negZero, .fin b => if b = 0 then false else decide (|0 - b| / b < 1 / 50)
  | .negZero, .negZero => false
  | _, _ => false

/-- The Double Top / Double Bottom test on the last two extremum values:
`vals[-1]` against `vals[-2]` (callers guard `2 ≤ idxs.length`). -/
def lastTwoCheck (close : List FVal) (idxs : List Nat) : Bool :=
  ieeeDoubleCheck ((valuesAt close idxs).getD ((valuesAt close idxs).length - 1) .nan)
    ((valuesAt close idxs).getD ((valuesAt close idxs).length - 2) .nan)

/-- Python slice `l[-n:]`: the last `n` elements. -/
def lastN (n : Nat) (l : List Nat) : List Nat := l.drop (l.length - n)

/-- The Head and Shoulders condition on `close_prices[peaks[-3:]]` and
`close_prices[valleys[-2:]]` (callers guard the lengths). -/
def headShouldersCheck (close : List FVal) (peaks valleys : List Nat) : Bool :=
  let l3 := valuesAt close (lastN 3 peaks)
  let l2 := valuesAt close (lastN 2 valleys)
  FVal.lt (l3.getD 0 .nan) (l3.getD 1 .nan) &&
    FVal.lt (l3.getD 2 .nan) (l3.getD 1 .nan) &&
    FVal.lt (l2.getD 0 .nan) (l3.getD 1 .nan) &&
    FVal.lt (l2.getD 1 .nan) (l3.getD 1 .nan)

/-- The peak/valley indices plus detected pattern labels computed inside
`analyze_patterns` for a given `close` series. -/
structure Detection where
  patterns : List String
  peaks : List Nat
  valleys : List Nat
  deriving DecidableEq, Repr

/-- The sentinel replacement `patterns or ["No recognizable patterns"]`
applied when building the success payload. -/
def finalize (d : Detection) : Detection :=
  { d with
    patterns := if d.patterns.isEmpty then ["No recognizable patterns"] else d.patterns }

/-- The detection portion of `analyze_patterns` (lines 53-84): peaks and
valleys via `find_peaks`, then the three independent pattern checks in
order Double Top, Double Bottom, Head and Shoulders. -/
def detect (close : List FVal) : Detection :=
  ⟨(if 2 ≤ (find_peaks close).length ∧ lastTwoCheck close (find_peaks close) = true
      then ["Double Top"] else []) ++
   (if 2 ≤ (find_peaks (close.map FVal.neg)).length ∧
        lastTwoCheck close (find_peaks (close.map FVal.neg)) = true
      then ["Double Bottom"] else []) ++
   (if 3 ≤ (find_peaks close).length ∧ 2 ≤ (find_peaks (close.map FVal.neg)).length ∧
        headShouldersCheck close (find_peaks close) (find_peaks (close.map FVal.neg)) = true
      then ["Head and Shoulders"] else []),
   find_peaks close, find_peaks (close.map FVal.neg)⟩

/-! ## Inbound data model and `analyze_patterns` -/

/-- The JSON value found under the `close` key of one series element:
a numeric value (or numeric string) that `astype(float)` coerces — with
`num 0` standing for an unsigned zero — the JSON literal `-0.0` (kept as
float64 negative zero), JSON null (which pandas stores as NaN), or a
value on which `astype(float)` raises (e.g. a non-numeric string). -/
inductive CloseField where
  | num (q : ℚ)
  | negZero
  | nullv
  | badStr
  deriving DecidableEq, Repr

/-- One element of the inbound `data` array; fields other than `close`
are ignored by the processor. `close = none` means the key is absent, in
which case pandas fills the cell with NaN. -/
structure Record where
  close : Option CloseField
  deriving DecidableEq, Repr

/-- A decoded JSON message body: a JSON object (with optional `symbol`
string and optional `data` array) or any non-object JSON value, on which
`data.get` raises AttributeError. -/
inductive JMsg where
  | obj (symbol : Option String) (data : Option (List Record))
  | nonObj
  deriving DecidableEq, Repr

/-- A Python exception escaping `analyze_patterns`. -/
inductive PyError where
  | attributeError
  deriving DecidableEq, Repr

/-- The dict returned by `analyze_patterns`: always `symbol` and
`analysis_type`; a success carries `analysis_data`, a failure carries
`error`. -/
structure AnalysisResult where
  symbol : String
  analysis_type : String
  analysis_data : Option Detection
  error : Option String
  deriving DecidableEq, Repr

/-- The failure-shape dict built in the `except` handler. -/
def failureResult (sym msg : String) : AnalysisResult :=
  ⟨sym, "chart_patterns", none, some msg⟩

/-- `"close" in df.columns` for a non-empty record list: pandas creates a
`close` column iff some record carries the key. -/
def closeColumnExists (rs : List Record) : Bool :=
  rs.any fun r => r.close.isSome

/-- `df["close"].astype(float)` succeeds iff no present `close` value is
uncoercible. -/
def astypeOk (rs : List Record) : Bool :=
  rs.all fun r => r.close ≠ some .badStr

/-- The float64 `close` column: coercible values become finite cells,
`-0.0` keeps its sign bit, absent keys and nulls become NaN. -/
def closeValues (rs : List Record) : List FVal :=
  rs.map fun r =>
    match r.close with
    | some (.num q) => .fin q
    | some .negZero => .negZero
    | _ => .nan

/-- `processor.analyze_patterns`.  Returns the outcome (a result dict, or
the Python exception that escapes) paired with the trace of result dicts
passed to `send_to_output`.  On a non-object argument, `data.get` raises
AttributeError inside the `try`; the `except` handler evaluates
`data.get("symbol", "UNKNOWN")` again, which raises the same
AttributeError out of the function.  Inside the `try`, a missing or empty
(falsy) `data` raises `ValueError("Missing 'data' field.")`; an
empty-or-closeless frame raises
`ValueError("Data must contain non-empty 'close' prices.")`; an
uncoercible `close` makes `astype(float)` raise; each is caught and turned
into the failure shape.  `send_to_output` is called only on the success
path (line 96). -/
def analyze_patterns : JMsg → Except PyError AnalysisResult × List AnalysisResult
  | .nonObj => (.error .attributeError, [])
  | .obj symbol data =>
    let sym := symbol.getD "UNKNOWN"
    match data with
    | none => (.ok (failureResult sym "Missing \x27data\x27 field."), [])
    | some rs =>
      if rs.isEmpty then
        (.ok (failureResult sym "Missing \x27data\x27 field."), [])
      else if !closeColumnExists rs then
        (.ok (failureResult sym "Data must contain non-empty \x27close\x27 prices."), [])
      else if !astypeOk rs then
        (.ok (failureResult sym "could not convert string to float"), [])
      else
        let result : AnalysisResult :=
          ⟨sym, "chart_patterns", some (finalize (detect (closeValues rs))), none⟩
        (.ok result, [result])

/-! ## Result sink (`output_handler.send_to_output`) -/

/-- Which of the side effects of `send_to_output` fail in a given run
(serialisation, the observability log call, the stdout print, the
downstream queue publish — the last is the external `publish_to_queue`,
a black box that may raise). -/
structure SinkEnv where
  dumpsFails : Bool
  logFails : Bool
  printFails : Bool
  publishFails : Bool
  deriving DecidableEq, Repr

/-- The side effects `send_to_output` can attempt, in program order. -/
inductive SinkStep where
  | dumps
  | logInfo
  | printStdout
  | publishQueue
  deriving DecidableEq, Repr

/-- `output_handler.send_to_output`: all four steps run sequentially in a
single `try` block whose handler only logs.  Returns the steps attempted
and whether an exception escapes to the caller (it never does).  The first
failing step aborts the remainder of the `try` body. -/
def send_to_output (env : SinkEnv) : List SinkStep × Bool :=
  if env.dumpsFails then ([.dumps], false)
  else if env.logFails then ([.dumps, .logInfo], false)
  else if env.printFails then ([.dumps, .logInfo, .printStdout], false)
  else ([.dumps, .logInfo, .printStdout, .publishQueue], false)

/-! ## RabbitMQ consumer (`queue_handler`) -/

/-- An inbound delivery body: either bytes that fail `json.loads`, or a
successfully decoded JSON value. -/
inductive Body where
  | invalidJson
  | valid (m : JMsg)
  deriving DecidableEq, Repr

/-- The single acknowledgement the callback issues for a delivery. -/
inductive Ack where
  | ack
  | nackRequeue
  | nackDrop
  deriving DecidableEq, Repr

/-- `queue_handler.callback` (lines 110-122): `json.loads` failure →
`basic_nack(requeue=False)`; any other exception out of
`analyze_patterns` → `basic_nack(requeue=True)`; otherwise `basic_ack`. -/
def callback : Body → Ack
  | .invalidJson => .nackDrop
  | .valid m =>
    match (analyze_patterns m).1 with
    | .ok _ => .ack
    | .error _ => .nackRequeue

/-- `queue_handler._connect_to_rabbitmq` modelled against an oracle
`fails k` saying whether the k-th connection attempt (0-based) raises.
`retries` starts at 5 and each failed attempt decrements it and sleeps 5
seconds.  Returns the index of the successful attempt (`none` when the
loop exhausts and `ConnectionError` is raised) together with the trace of
sleep durations in seconds. -/
def connectLoop (fails : Nat → Bool) : Nat → Nat → Option Nat × List Nat
  | 0, _ => (none, [])
  | r + 1, k =>
      if fails k then
        let rest := connectLoop fails r (k + 1)
        (rest.1, 5 :: rest.2)
      else (some k, [])

/-- `_connect_to_rabbitmq` with its fixed retry budget of 5. -/
def connect_to_rabbitmq (fails : Nat → Bool) : Option Nat × List Nat :=
  connectLoop fails 5 0

/-! ## Lemmas about the peak finder -/

lemma FVal.lt_asymm {a b : FVal} (h : FVal.lt a b = true) : FVal.lt b a = false := by
  cases a <;> cases b <;> simp_all [FVal.lt, FVal.val?]
  all_goals linarith

/-- IEEE negation flips the sign bit only, so the compared numeric value
is negated (with `-0 = 0` on the rational side). -/
lemma FVal.val?_neg (a : FVal) : (FVal.neg a).val? = a.val?.map fun x => -x := by
  cases a with
  | fin q =>
    by_cases hq : q = 0
    · subst hq; simp [FVal.neg, FVal.val?]
    · simp [FVal.neg, FVal.val?, hq]
  | negZero => simp [FVal.neg, FVal.val?]
  | nan => rfl

lemma FVal.eqIEEE_symm (a b : FVal) : FVal.eqIEEE a b = FVal.eqIEEE b a := by
  unfold FVal.eqIEEE
  cases a.val? <;> cases b.val? <;> simp [eq_comm]

lemma FVal.lt_neg (a b : FVal) : FVal.lt (FVal.neg a) (FVal.neg b) = FVal.lt b a := by
  unfold FVal.lt
  rw [FVal.val?_neg, FVal.val?_neg]
  cases a.val? <;> cases b.val? <;> simp

lemma FVal.eqIEEE_neg (a b : FVal) :
    FVal.eqIEEE (FVal.neg a) (FVal.neg b) = FVal.eqIEEE a b := by
  unfold FVal.eqIEEE
  rw [FVal.val?_neg, FVal.val?_neg]
  cases a.val? <;> cases b.val? <;> simp [neg_inj]

lemma getD_map_neg (x : List FVal) (k : Nat) :
    (x.map FVal.neg).getD k FVal.nan = FVal.neg (x.getD k FVal.nan) := by
  by_cases hk : k < x.length
  · rw [List.getD_eq_getElem _ _ (by simpa using hk), List.getD_eq_getElem _ _ hk]
    simp
  · rw [List.getD_eq_default _ _ (by simpa using Nat.le_of_not_lt hk),
      List.getD_eq_default _ _ (Nat.le_of_not_lt hk)]
    rfl

lemma plateauEnd_ge (x : List FVal) (imax : Nat) (v : FVal) :
    ∀ fuel ia, ia ≤ plateauEnd x imax v fuel ia := by
  intro fuel
  induction fuel with
  | zero => intro ia; simp [plateauEnd]
  | succ fuel ih =>
    intro ia
    simp only [plateauEnd]
    split
    · exact le_trans (Nat.le_succ ia) (ih (ia + 1))
    · exact le_refl ia

lemma plateauEnd_le (x : List FVal) (imax : Nat) (v : FVal) :
    ∀ fuel ia, ia ≤ imax → plateauEnd x imax v fuel ia ≤ imax := by
  intro fuel
  induction fuel with
  | zero => intro ia h; simpa [plateauEnd] using h
  | succ fuel ih =>
    intro ia h
    simp only [plateauEnd]
    split
    · rename_i hcond
      have : ia < imax := by
        simp only [Bool.and_eq_true, decide_eq_true_eq] at hcond
        exact hcond.1
      exact ih (ia + 1) this
    · exact h

lemma plateauEnd_stop (x : List FVal) (imax : Nat) (v : FVal) (fuel ia : Nat)
    (h : (decide (ia < imax) && FVal.eqIEEE (x.getD ia FVal.nan) v) = false) :
    plateauEnd x imax v fuel ia = ia := by
  cases fuel with
  | zero => rfl
  | succ fuel => simp only [plateauEnd, h]; rfl

lemma peaksLoop_mem_bounds (x : List FVal) (imax : Nat) :
    ∀ fuel i acc (j : Nat), 1 ≤ i → j ∈ peaksLoop x imax fuel i acc →
      j ∈ acc ∨ (1 ≤ j ∧ j < imax) := by
  intro fuel
  induction fuel with
  | zero => intro i acc j _ hj; exact Or.inl hj
  | succ fuel ih =>
    intro i acc j hi hj
    simp only [peaksLoop] at hj
    split at hj
    · rename_i hilt
      split at hj
      · split at hj
        · rcases ih _ _ _ (by omega) hj with hmem | hb
          · rcases List.mem_append.mp hmem with hmem | hmem
            · exact Or.inl hmem
            · right
              have hj' : j = (i + (plateauEnd x imax (x.getD i FVal.nan) imax (i + 1) - 1)) / 2 := by
                simpa using hmem
              have hge := plateauEnd_ge x imax (x.getD i FVal.nan) imax (i + 1)
              have hle := plateauEnd_le x imax (x.getD i FVal.nan) imax (i + 1) (by omega)
              omega
          · exact Or.inr hb
        · rcases ih _ _ _ (by omega) hj with hmem | hb
          · exact Or.inl hmem
          · exact Or.inr hb
      · rcases ih _ _ _ (by omega) hj with hmem | hb
        · exact Or.inl hmem
        · exact Or.inr hb
    · exact Or.inl hj

lemma find_peaks_bounds (x : List FVal) (j : Nat) (hj : j ∈ find_peaks x) :
    1 ≤ j ∧ j + 1 < x.length := by
  rcases peaksLoop_mem_bounds x (x.length - 1) x.length 1 [] j (by omega) hj with h | h
  · simp at h
  · omega

lemma peaksLoop_mem_iff (x : List FVal) (hadj : noAdjEq x) :
    ∀ fuel i acc (j : Nat), 1 ≤ i → x.length - 1 ≤ i + fuel →
      (j ∈ peaksLoop x (x.length - 1) fuel i acc ↔
        j ∈ acc ∨ (i ≤ j ∧ strictPeakAt x j)) := by
  intro fuel
  induction fuel with
  | zero =>
    intro i acc j hi hf
    simp only [peaksLoop]
    constructor
    · exact Or.inl
    · rintro (h | ⟨hij, _, hlen, _⟩)
      · exact h
      · omega
  | succ fuel ih =>
    intro i acc j hi hf
    simp only [peaksLoop]
    split
    · rename_i hilt
      split
      · rename_i h1
        have hplat : plateauEnd x (x.length - 1) (x.getD i FVal.nan) (x.length - 1) (i + 1)
            = i + 1 := by
          apply plateauEnd_stop
          have := hadj i (by omega)
          rw [FVal.eqIEEE_symm] at this
          rw [this, Bool.and_false]
        rw [hplat]
        split
        · rename_i h2
          have hmid : (i + (i + 1 - 1)) / 2 = i := by omega
          rw [hmid]
          rw [ih (i + 2) (acc ++ [i]) j (by omega) (by omega)]
          constructor
          · rintro (hmem | ⟨hij, hP⟩)
            · rcases List.mem_append.mp hmem with hmem | hmem
              · exact Or.inl hmem
              · refine Or.inr ⟨?_, ?_⟩
                · simp at hmem; omega
                · have hji : j = i := by simpa using hmem
                  subst hji
                  exact ⟨by omega, by omega, h1, h2⟩
            · exact Or.inr ⟨by omega, hP⟩
          · rintro (hmem | ⟨hij, hP⟩)
            · exact Or.inl (List.mem_append.mpr (Or.inl hmem))
            · rcases Nat.lt_or_ge j (i + 2) with hj2 | hj2
              · rcases Nat.eq_or_lt_of_le hij with hji | hji
                · refine Or.inl (List.mem_append.mpr (Or.inr ?_))
                  simp [hji]
                · -- j = i + 1 is impossible: its left-neighbour condition
                  -- contradicts x[i+1] < x[i]
                  exfalso
                  have hji1 : j = i + 1 := by omega
                  subst hji1
                  rcases hP with ⟨_, _, hl, _⟩
                  simp only [Nat.add_sub_cancel] at hl
                  have := FVal.lt_asymm h2
                  rw [this] at hl
                  exact Bool.false_ne_true hl
              · exact Or.inr ⟨hj2, hP⟩
        · rename_i h2
          rw [ih (i + 1) acc j (by omega) (by omega)]
          constructor
          · rintro (hmem | ⟨hij, hP⟩)
            · exact Or.inl hmem
            · exact Or.inr ⟨by omega, hP⟩
          · rintro (hmem | ⟨hij, hP⟩)
            · exact Or.inl hmem
            · rcases Nat.eq_or_lt_of_le hij with hji | hji
              · exfalso
                subst hji
                rcases hP with ⟨_, _, _, hr⟩
                exact h2 hr
              · exact Or.inr ⟨hji, hP⟩
      · rename_i h1
        rw [ih (i + 1) acc j (by omega) (by omega)]
        constructor
        · rintro (hmem | ⟨hij, hP⟩)
          · exact Or.inl hmem
          · exact Or.inr ⟨by omega, hP⟩
        · rintro (hmem | ⟨hij, hP⟩)
          · exact Or.inl hmem
          · rcases Nat.eq_or_lt_of_le hij with hji | hji
            · exfalso
              subst hji
              rcases hP with ⟨_, _, hl, _⟩
              exact h1 hl
            · exact Or.inr ⟨hji, hP⟩
    · rename_i hilt
      constructor
      · exact Or.inl
      · rintro (hmem | ⟨hij, _, hlen, _⟩)
        · exact hmem
        · omega

/-- On a plateau-free series, `find_peaks` returns exactly the strict
interior local maxima. -/
lemma mem_find_peaks_iff (x : List FVal) (hadj : noAdjEq x) (j : Nat) :
    j ∈ find_peaks x ↔ strictPeakAt x j := by
  rw [find_peaks, peaksLoop_mem_iff x hadj x.length 1 [] j (by omega) (by omega)]
  constructor
  · rintro (h | ⟨_, hP⟩)
    · simp at h
    · exact hP
  · intro hP
    exact Or.inr ⟨hP.1, hP⟩

lemma noAdjEq_map_neg (x : List FVal) (hadj : noAdjEq x) :
    noAdjEq (x.map FVal.neg) := by
  intro k hk
  rw [getD_map_neg, getD_map_neg, FVal.eqIEEE_neg]
  exact hadj k (by simpa using hk)

/-- On a plateau-free series, `find_peaks` of the negated series returns
exactly the strict interior local minima of the original series. -/
lemma mem_find_valleys_iff (x : List FVal) (hadj : noAdjEq x) (j : Nat) :
    j ∈ find_peaks (x.map FVal.neg) ↔ strictValleyAt x j := by
  rw [mem_find_peaks_iff _ (noAdjEq_map_neg x hadj) j]
  unfold strictPeakAt strictValleyAt
  rw [getD_map_neg, getD_map_neg, getD_map_neg, FVal.lt_neg, FVal.lt_neg]
  simp only [List.length_map]

/-! ## Lemmas about the detection core -/

lemma getD_map_of_lt {α β : Type} (f : α → β) (l : List α) (n : Nat) (d : β) (d0 : α)
    (h : n < l.length) : (l.map f).getD n d = f (l.getD n d0) := by
  rw [List.getD_eq_getElem _ _ (by simpa using h), List.getD_eq_getElem _ _ h]
  simp

lemma getD_mem {α : Type} (l : List α) (n : Nat) (d : α) (h : n < l.length) :
    l.getD n d ∈ l := by
  rw [List.getD_eq_getElem _ _ h]
  exact List.getElem_mem h

lemma toF_getD (q : List ℚ) (k : Nat) (h : k < q.length) :
    (toF q).getD k FVal.nan = FVal.fin (q.getD k 0) := by
  unfold toF
  exact getD_map_of_lt FVal.fin q k FVal.nan 0 h

lemma mem_ite_singleton (s t : String) (b : Bool) :
    (s ∈ (if b then [t] else ([] : List String))) ↔ (b = true ∧ s = t) := by
  cases b <;> simp

lemma mem_detect_doubleTop (c : List FVal) :
    "Double Top" ∈ (detect c).patterns ↔
      (2 ≤ (find_peaks c).length ∧ lastTwoCheck c (find_peaks c) = true) := by
  unfold detect
  split_ifs with h1 h2 h3 <;> simp_all

lemma mem_detect_doubleBottom (c : List FVal) :
    "Double Bottom" ∈ (detect c).patterns ↔
      (2 ≤ (find_peaks (c.map FVal.neg)).length ∧
        lastTwoCheck c (find_peaks (c.map FVal.neg)) = true) := by
  unfold detect
  split_ifs with h1 h2 h3 <;> simp_all

lemma ieeeDoubleCheck_fin (a r : ℚ) :
    ieeeDoubleCheck (.fin a) (.fin r) = true ↔ (r ≠ 0 ∧ |a - r| / r < 1 / 50) := by
  unfold ieeeDoubleCheck
  split <;> simp_all

/-- For a purely numeric series, the last-two check is the signed
relative-difference test `|a - r| / r < 0.02` with `r` nonzero, where `a`
and `r` are the series values at the last and second-last indices. -/
lemma lastTwoCheck_toF (q : List ℚ) (idxs : List Nat)
    (hlen : 2 ≤ idxs.length) (hbound : ∀ j ∈ idxs, j < q.length) :
    lastTwoCheck (toF q) idxs =
      ieeeDoubleCheck (.fin (q.getD (idxs.getD (idxs.length - 1) 0) 0))
        (.fin (q.getD (idxs.getD (idxs.length - 2) 0) 0)) := by
  unfold lastTwoCheck
  have hL : (valuesAt (toF q) idxs).length = idxs.length := by simp [valuesAt]
  rw [hL]
  have h1 : idxs.length - 1 < idxs.length := by omega
  have h2 : idxs.length - 2 < idxs.length := by omega
  unfold valuesAt
  rw [getD_map_of_lt _ _ _ _ 0 h1, getD_map_of_lt _ _ _ _ 0 h2]
  rw [toF_getD _ _ (hbound _ (getD_mem _ _ _ h1)), toF_getD _ _ (hbound _ (getD_mem _ _ _ h2))]

lemma find_peaks_toF_lt_length (q : List ℚ) (j : Nat) (hj : j ∈ find_peaks (toF q)) :
    j < q.length := by
  have := find_peaks_bounds (toF q) j hj
  simp only [toF, List.length_map] at this
  omega

lemma find_valleys_toF_lt_length (q : List ℚ) (j : Nat)
    (hj : j ∈ find_peaks ((toF q).map FVal.neg)) : j < q.length := by
  have := find_peaks_bounds ((toF q).map FVal.neg) j hj
  simp only [toF, List.length_map] at this
  omega

/-- Double Top fires on a numeric series iff the second-last peak value is
nonzero and the signed quotient is below 2%. -/
lemma doubleTop_iff (q : List ℚ) (h2 : 2 ≤ (find_peaks (toF q)).length) :
    ("Double Top" ∈ (detect (toF q)).patterns ↔
      (q.getD ((find_peaks (toF q)).getD ((find_peaks (toF q)).length - 2) 0) 0 ≠ 0 ∧
        |q.getD ((find_peaks (toF q)).getD ((find_peaks (toF q)).length - 1) 0) 0 -
          q.getD ((find_peaks (toF q)).getD ((find_peaks (toF q)).length - 2) 0) 0| /
          q.getD ((find_peaks (toF q)).getD ((find_peaks (toF q)).length - 2) 0) 0
          < 1 / 50)) := by
  rw [mem_detect_doubleTop,
    lastTwoCheck_toF q _ h2 (fun j hj => find_peaks_toF_lt_length q j hj),
    ieeeDoubleCheck_fin]
  simp [h2]

/-- Double Bottom fires on a numeric series iff the second-last valley
value is nonzero and the signed quotient is below 2%. -/
lemma doubleBottom_iff (q : List ℚ)
    (h2 : 2 ≤ (find_peaks ((toF q).map FVal.neg)).length) :
    ("Double Bottom" ∈ (detect (toF q)).patterns ↔
      (q.getD ((find_peaks ((toF q).map FVal.neg)).getD
          ((find_peaks ((toF q).map FVal.neg)).length - 2) 0) 0 ≠ 0 ∧
        |q.getD ((find_peaks ((toF q).map FVal.neg)).getD
            ((find_peaks ((toF q).map FVal.neg)).length - 1) 0) 0 -
          q.getD ((find_peaks ((toF q).map FVal.neg)).getD
            ((find_peaks ((toF q).map FVal.neg)).length - 2) 0) 0| /
          q.getD ((find_peaks ((toF q).map FVal.neg)).getD
            ((find_peaks ((toF q).map FVal.neg)).length - 2) 0) 0
          < 1 / 50)) := by
  rw [mem_detect_doubleBottom,
    lastTwoCheck_toF q _ h2 (fun j hj => find_valleys_toF_lt_length q j hj),
    ieeeDoubleCheck_fin]
  simp [h2]

/-! ## Lemmas about `analyze_patterns`, the sink and the consumer -/

/-- A `data` array all of whose elements carry a numeric `close`. -/
def numericRecords (q : List ℚ) : List Record :=
  q.map fun c => ⟨some (.num c)⟩

lemma closeValues_numeric (q : List ℚ) : closeValues (numericRecords q) = toF q := by
  unfold closeValues numericRecords toF
  rw [List.map_map]
  rfl

lemma analyze_numeric (q : List ℚ) (hq : q ≠ []) (sym : Option String) :
    analyze_patterns (.obj sym (some (numericRecords q))) =
      (.ok ⟨sym.getD "UNKNOWN", "chart_patterns", some (finalize (detect (toF q))), none⟩,
        [⟨sym.getD "UNKNOWN", "chart_patterns", some (finalize (detect (toF q))), none⟩]) := by
  obtain ⟨a, l, rfl⟩ : ∃ a l, q = a :: l := by
    cases q with
    | nil => exact absurd rfl hq
    | cons a l => exact ⟨a, l, rfl⟩
  have hne : (numericRecords (a :: l)).isEmpty = false := rfl
  have hcol : closeColumnExists (numericRecords (a :: l)) = true := rfl
  have hast : astypeOk (numericRecords (a :: l)) = true := by
    unfold astypeOk numericRecords
    rw [List.all_eq_true]
    intro r hr
    simp only [List.mem_map] at hr
    obtain ⟨c, -, rfl⟩ := hr
    simp
  simp [analyze_patterns, hne, hcol, hast, closeValues_numeric]

lemma analyze_obj_ok (sym : Option String) (data : Option (List Record)) :
    ∃ r, (analyze_patterns (.obj sym data)).1 = .ok r ∧
      r.symbol = sym.getD "UNKNOWN" ∧ r.analysis_type = "chart_patterns" ∧
      r.analysis_data.isSome = !r.error.isSome := by
  cases data with
  | none =>
    exact ⟨failureResult (sym.getD "UNKNOWN") "Missing \x27data\x27 field.", rfl, rfl, rfl, rfl⟩
  | some rs =>
    by_cases he : rs.isEmpty = true
    · refine ⟨failureResult (sym.getD "UNKNOWN") "Missing \x27data\x27 field.",
        ?_, rfl, rfl, rfl⟩
      simp [analyze_patterns, he]
    · rw [Bool.not_eq_true] at he
      by_cases hc : closeColumnExists rs = true
      · by_cases ha : astypeOk rs = true
        · refine ⟨⟨sym.getD "UNKNOWN", "chart_patterns",
            some (finalize (detect (closeValues rs))), none⟩, ?_, rfl, rfl, rfl⟩
          simp [analyze_patterns, he, hc, ha]
        · rw [Bool.not_eq_true] at ha
          refine ⟨failureResult (sym.getD "UNKNOWN") "could not convert string to float",
            ?_, rfl, rfl, rfl⟩
          simp [analyze_patterns, he, hc, ha]
      · rw [Bool.not_eq_true] at hc
        refine ⟨failureResult (sym.getD "UNKNOWN")
          "Data must contain non-empty \x27close\x27 prices.", ?_, rfl, rfl, rfl⟩
        simp [analyze_patterns, he, hc]

lemma analyze_trace (m : JMsg) :
    (analyze_patterns m).2 =
      match (analyze_patterns m).1 with
      | .ok r => if r.error = none then [r] else []
      | .error _ => [] := by
  cases m with
  | nonObj => rfl
  | obj sym data =>
    cases data with
    | none => rfl
    | some rs =>
      by_cases he : rs.isEmpty = true
      · simp [analyze_patterns, he, failureResult]
      · rw [Bool.not_eq_true] at he
        by_cases hc : closeColumnExists rs = true
        · by_cases ha : astypeOk rs = true
          · simp [analyze_patterns, he, hc, ha]
          · rw [Bool.not_eq_true] at ha
            simp [analyze_patterns, he, hc, ha, failureResult]
        · rw [Bool.not_eq_true] at hc
          simp [analyze_patterns, he, hc, failureResult]

lemma connectLoop_success (fails : Nat → Bool) :
    ∀ r k f, f < r → (∀ j, k ≤ j → j < k + f → fails j = true) → fails (k + f) = false →
      connectLoop fails r k = (some (k + f), List.replicate f 5) := by
  intro r
  induction r with
  | zero => intro k f hf; omega
  | succ r ih =>
    intro k f hf hfail hok
    cases f with
    | zero =>
      simp only [Nat.add_zero] at hok
      simp [connectLoop, hok]
    | succ f =>
      have hk : fails k = true := hfail k (le_refl k) (by omega)
      have heq : k + (f + 1) = (k + 1) + f := by omega
      have hrec := ih (k + 1) f (by omega)
        (fun j hj1 hj2 => hfail j (by omega) (by omega))
        (by rw [← heq]; exact hok)
      simp only [connectLoop, hk, if_true, hrec]
      rw [heq, List.replicate_succ]

lemma connectLoop_exhaust (fails : Nat → Bool) :
    ∀ r k, (∀ j, k ≤ j → j < k + r → fails j = true) →
      connectLoop fails r k = (none, List.replicate r 5) := by
  intro r
  induction r with
  | zero => intro k _; rfl
  | succ r ih =>
    intro k h
    have hk : fails k = true := h k (le_refl k) (by omega)
    have hrec := ih (k + 1) (fun j hj1 hj2 => h j (by omega) (by omega))
    simp only [connectLoop, hk, if_true, hrec]
    rw [List.replicate_succ]

/-! ## Claim C1 -/

/-- C1, counterexample: for the valid-JSON object `{}` (whose `data` field
is absent), `analyze_patterns` returns the failure AnalysisResult with
`error` set, but the callback issues `basic_ack` — not
`basic_nack(requeue=False)` as the claim states — because the processor
absorbs the ValueError and returns normally. -/
theorem claim1_counterexample :
    callback (.valid (.obj none none)) = Ack.ack ∧
    (analyze_patterns (.obj none none)).1 =
      .ok (failureResult "UNKNOWN" "Missing \x27data\x27 field.") :=
  ⟨rfl, rfl⟩

/-- C1 (amended): for every inbound RabbitMQ message whose body is valid
JSON (an object) with `data` empty or absent, processing yields a failure
AnalysisResult with `error` set, and the message is acknowledged via
`ack`: `analyze_patterns` converts the validation error into the failure
dict instead of raising, so the poison-message `nack(requeue=False)` path
is taken only for JSON-decode failures. -/
theorem claim1_amended (sym : Option String) (data : Option (List Record))
    (h : data = none ∨ data = some []) :
    (analyze_patterns (.obj sym data)).1 =
      .ok (failureResult (sym.getD "UNKNOWN") "Missing \x27data\x27 field.") ∧
    (failureResult (sym.getD "UNKNOWN") "Missing \x27data\x27 field.").error ≠ none ∧
    callback (.valid (.obj sym data)) = Ack.ack := by
  rcases h with rfl | rfl
  · exact ⟨rfl, by simp [failureResult], rfl⟩
  · exact ⟨rfl, by simp [failureResult], rfl⟩

theorem claim1_amended_witness :
    (analyze_patterns (.obj none (some []))).1 =
      .ok (failureResult "UNKNOWN" "Missing \x27data\x27 field.") ∧
    (failureResult "UNKNOWN" "Missing \x27data\x27 field.").error ≠ none ∧
    callback (.valid (.obj none (some []))) = Ack.ack :=
  claim1_amended none (some []) (Or.inr rfl)

/-! ## Claim C2 -/

/-- C2, counterexample: with an attempt oracle whose first 5 attempts fail
and whose 6th attempt would succeed, `_connect_to_rabbitmq` raises
ConnectionError (result `none`) after exactly 5 attempts (5 sleeps): no
6th attempt is ever made, so it is the 5th consecutive failure — not a
6th failed attempt — that triggers the fatal error. -/
theorem claim2_counterexample :
    connect_to_rabbitmq (fun k => decide (k < 5)) = (none, [5, 5, 5, 5, 5]) ∧
    (fun k => decide (k < 5)) 5 = false := by
  exact ⟨by decide, by decide⟩

/-- C2 (amended): the connect loop retries with a 5-second inter-attempt
delay; every run with fewer than 5 consecutive leading failures returns a
connection at the first succeeding attempt, and 5 consecutive failures
exhaust the budget, raising ConnectionError after exactly 5 attempts
(and 5 sleeps of 5 seconds) without a 6th attempt. -/
theorem claim2_amended (fails : Nat → Bool) :
    (∀ f, f < 5 → (∀ k, k < f → fails k = true) → fails f = false →
      connect_to_rabbitmq fails = (some f, List.replicate f 5)) ∧
    ((∀ k, k < 5 → fails k = true) →
      connect_to_rabbitmq fails = (none, List.replicate 5 5)) := by
  constructor
  · intro f hf hfail hok
    have := connectLoop_success fails 5 0 f hf
      (fun j hj1 hj2 => hfail j (by omega)) (by simpa using hok)
    simpa using this
  · intro hfail
    exact connectLoop_exhaust fails 5 0 (fun j hj1 hj2 => hfail j (by omega))

theorem claim2_amended_witness :
    connect_to_rabbitmq (fun k => decide (k < 3)) = (some 3, [5, 5, 5]) := by
  have := (claim2_amended (fun k => decide (k < 3))).1 3 (by omega)
    (fun k hk => by simp [hk]) (by simp)
  simpa using this

/-! ## Claim C3 -/

/-- C3, counterexample: the series [-200, -100, -300, -1, -300] has peaks
at indices 1 and 3 with values -100 and -1; the claimed test
|a-b| / |reference| = 99/100 is not below 0.02, yet the code divides by
the signed reference -100, obtaining -0.99 < 0.02, and the Double Top
label fires — so a negative reference does change which pairs match. -/
theorem claim3_counterexample :
    find_peaks (toF [-200, -100, -300, -1, -300]) = [1, 3] ∧
    "Double Top" ∈ (detect (toF [-200, -100, -300, -1, -300])).patterns ∧
    ¬(|(-1 : ℚ) - (-100)| / |(-100 : ℚ)| < 1 / 50) := by
  have hpk : find_peaks (toF [-200, -100, -300, -1, -300]) = [1, 3] := by decide
  refine ⟨hpk, ?_, ?_⟩
  · refine (doubleTop_iff [-200, -100, -300, -1, -300] (by decide)).mpr ?_
    rw [hpk]
    constructor
    · norm_num [List.getD]
    · rw [show (([-200, -100, -300, -1, -300] : List ℚ).getD
          ([1, 3].getD ([1, 3].length - 1) 0) 0) = -1 by norm_num [List.getD],
        show (([-200, -100, -300, -1, -300] : List ℚ).getD
          ([1, 3].getD ([1, 3].length - 2) 0) 0) = -100 by norm_num [List.getD]]
      rw [abs_of_pos (by norm_num)]
      norm_num
  · rw [abs_of_pos (by norm_num), abs_of_neg (by norm_num)]
    norm_num

/-- C3 (amended): the detector compares against the SIGNED second-last
extremum value.  For a series of plain numeric closes (every zero
unsigned, i.e. `+0.0`) with at least two peaks (resp. valleys), Double Top
(resp. Double Bottom) fires iff that reference r is nonzero and the
signed quotient |last - r| / r is below 0.02: this agrees with the
claimed |last - r| / |r| < 0.02 when r is positive and always fires when
r is negative.  A zero reference follows IEEE signed-zero division: a
`+0.0` reference never fires (quotient +inf or NaN), while a `-0.0`
reference fires iff the last value is numerically nonzero (quotient
-inf, which IS below 0.02). -/
theorem claim3_amended :
    (∀ q : List ℚ, 2 ≤ (find_peaks (toF q)).length →
      ("Double Top" ∈ (detect (toF q)).patterns ↔
        (q.getD ((find_peaks (toF q)).getD ((find_peaks (toF q)).length - 2) 0) 0 ≠ 0 ∧
          |q.getD ((find_peaks (toF q)).getD ((find_peaks (toF q)).length - 1) 0) 0 -
            q.getD ((find_peaks (toF q)).getD ((find_peaks (toF q)).length - 2) 0) 0| /
            q.getD ((find_peaks (toF q)).getD ((find_peaks (toF q)).length - 2) 0) 0
            < 1 / 50))) ∧
    (∀ q : List ℚ, 2 ≤ (find_peaks ((toF q).map FVal.neg)).length →
      ("Double Bottom" ∈ (detect (toF q)).patterns ↔
        (q.getD ((find_peaks ((toF q).map FVal.neg)).getD
            ((find_peaks ((toF q).map FVal.neg)).length - 2) 0) 0 ≠ 0 ∧
          |q.getD ((find_peaks ((toF q).map FVal.neg)).getD
              ((find_peaks ((toF q).map FVal.neg)).length - 1) 0) 0 -
            q.getD ((find_peaks ((toF q).map FVal.neg)).getD
              ((find_peaks ((toF q).map FVal.neg)).length - 2) 0) 0| /
            q.getD ((find_peaks ((toF q).map FVal.neg)).getD
              ((find_peaks ((toF q).map FVal.neg)).length - 2) 0) 0
            < 1 / 50))) ∧
    (∀ a : ℚ, ieeeDoubleCheck (.fin a) (.fin 0) = false) ∧
    (∀ a : ℚ, ieeeDoubleCheck (.fin a) FVal.negZero = decide (a ≠ 0)) :=
  ⟨fun q h2 => doubleTop_iff q h2, fun q h2 => doubleBottom_iff q h2,
   fun a => by simp [ieeeDoubleCheck], fun a => rfl⟩

theorem claim3_amended_witness :
    "Double Top" ∈ (detect (toF [0, 2, 0, 2, 0])).patterns ∧
    "Double Bottom" ∈ (detect (toF [3, 1, 3, 1, 3])).patterns ∧
    ieeeDoubleCheck (FVal.fin 5) FVal.negZero = true := by
  have hpk : find_peaks (toF [0, 2, 0, 2, 0]) = [1, 3] := by decide
  have hvl : find_peaks ((toF [3, 1, 3, 1, 3]).map FVal.neg) = [1, 3] := by decide
  refine ⟨?_, ?_, ?_⟩
  · refine (claim3_amended.1 [0, 2, 0, 2, 0] (by decide)).mpr ?_
    rw [hpk]
    norm_num [List.getD]
  · refine (claim3_amended.2.1 [3, 1, 3, 1, 3] (by decide)).mpr ?_
    rw [hvl]
    norm_num [List.getD]
  · rw [claim3_amended.2.2.2 5]
    decide

/-! ## Claim C4 -/

/-- C4, counterexample: the series [-1.0, -0.0, -1.0, 5.0, -1.0] has peaks
at indices 1 and 3, so the reference peak value is -0.0 — exactly zero
(the program compares it equal to 0.0) — yet the Double Top label fires:
there is no guard before dividing, and 5.0 / -0.0 = -inf, which IS below
0.02.  The original claim is therefore false of the program. -/
theorem claim4_counterexample :
    find_peaks [FVal.fin (-1), FVal.negZero, FVal.fin (-1), FVal.fin 5, FVal.fin (-1)]
      = [1, 3] ∧
    valuesAt [FVal.fin (-1), FVal.negZero, FVal.fin (-1), FVal.fin 5, FVal.fin (-1)]
      (find_peaks [FVal.fin (-1), FVal.negZero, FVal.fin (-1), FVal.fin 5, FVal.fin (-1)])
      = [FVal.negZero, FVal.fin 5] ∧
    FVal.eqIEEE FVal.negZero (FVal.fin 0) = true ∧
    "Double Top" ∈
      (detect [FVal.fin (-1), FVal.negZero, FVal.fin (-1), FVal.fin 5,
        FVal.fin (-1)]).patterns :=
  ⟨by decide, by decide, by decide,
   (mem_detect_doubleTop _).mpr ⟨by decide, by decide⟩⟩

/-- C4 (amended): there is no guard before dividing; the outcome follows
IEEE signed-zero division and never raises.  A reference of `+0.0` (any
unsigned numeric zero, as in a series of plain numbers) makes the
quotient +inf or NaN, so the check does not fire and such a series is
analysed to a normal success result; but a reference of `-0.0` — also
exactly zero — makes the quotient -inf when the last extremum value is
numerically nonzero, and the label then fires (the label fires exactly
when the last-two-values check does). -/
theorem claim4_amended :
    (∀ q : List ℚ, 2 ≤ (find_peaks (toF q)).length →
      q.getD ((find_peaks (toF q)).getD ((find_peaks (toF q)).length - 2) 0) 0 = 0 →
      "Double Top" ∉ (detect (toF q)).patterns) ∧
    (∀ q : List ℚ, 2 ≤ (find_peaks ((toF q).map FVal.neg)).length →
      q.getD ((find_peaks ((toF q).map FVal.neg)).getD
        ((find_peaks ((toF q).map FVal.neg)).length - 2) 0) 0 = 0 →
      "Double Bottom" ∉ (detect (toF q)).patterns) ∧
    (∀ q : List ℚ, q ≠ [] → ∀ sym,
      (analyze_patterns (.obj sym (some (numericRecords q)))).1 =
        .ok ⟨sym.getD "UNKNOWN", "chart_patterns",
          some (finalize (detect (toF q))), none⟩) ∧
    (∀ a : ℚ, a ≠ 0 → ieeeDoubleCheck (.fin a) FVal.negZero = true) ∧
    (∀ c : List FVal, 2 ≤ (find_peaks c).length →
      ("Double Top" ∈ (detect c).patterns ↔
        lastTwoCheck c (find_peaks c) = true)) := by
  refine ⟨?_, ?_, ?_, ?_, ?_⟩
  · intro q h2 hz hmem
    exact ((doubleTop_iff q h2).mp hmem).1 hz
  · intro q h2 hz hmem
    exact ((doubleBottom_iff q h2).mp hmem).1 hz
  · intro q hq sym
    rw [analyze_numeric q hq sym]
  · intro a ha
    simp [ieeeDoubleCheck, ha]
  · intro c h2
    rw [mem_detect_doubleTop]
    simp [h2]

theorem claim4_amended_witness :
    "Double Top" ∉ (detect (toF [-1, 0, -1, 1, -1])).patterns ∧
    ieeeDoubleCheck (FVal.fin 5) FVal.negZero = true ∧
    (analyze_patterns (.obj none (some (numericRecords [-1, 0, -1, 1, -1])))).1 =
      .ok ⟨"UNKNOWN", "chart_patterns",
        some (finalize (detect (toF [-1, 0, -1, 1, -1]))), none⟩ :=
  ⟨claim4_amended.1 [-1, 0, -1, 1, -1] (by decide) (by decide),
   claim4_amended.2.2.2.1 5 (by decide),
   claim4_amended.2.2.1 [-1, 0, -1, 1, -1] (by decide) none⟩

/-! ## Claim C5 -/

/-- C5, counterexample: a two-element series whose second element lacks a
`close` key is NOT rejected: pandas fills the missing cell with NaN,
`astype(float)` succeeds on it, and a success payload is computed. -/
theorem claim5_counterexample :
    (analyze_patterns (.obj none (some [⟨some (.num 1)⟩, ⟨none⟩]))).1 =
      .ok ⟨"UNKNOWN", "chart_patterns",
        some ⟨["No recognizable patterns"], [], []⟩, none⟩ := by
  rfl

/-- C5 (amended): an empty series is rejected before analysis with the
missing-data failure; a non-empty series NONE of whose elements carries a
`close` key is rejected with the non-empty-close failure; a series with a
`close` value that float coercion rejects fails at `astype`; but an
element that merely lacks `close` while some other element carries one is
filled with NaN and analysis proceeds to a success payload — such
requests are not rejected. -/
theorem claim5_amended (sym : Option String) (rs : List Record) :
    (rs = [] → (analyze_patterns (.obj sym (some rs))).1 =
      .ok (failureResult (sym.getD "UNKNOWN") "Missing \x27data\x27 field.")) ∧
    (rs ≠ [] → (∀ r ∈ rs, r.close = none) →
      (analyze_patterns (.obj sym (some rs))).1 =
        .ok (failureResult (sym.getD "UNKNOWN")
          "Data must contain non-empty \x27close\x27 prices.")) ∧
    (rs ≠ [] → closeColumnExists rs = true → astypeOk rs = false →
      (analyze_patterns (.obj sym (some rs))).1 =
        .ok (failureResult (sym.getD "UNKNOWN") "could not convert string to float")) ∧
    (rs ≠ [] → closeColumnExists rs = true → astypeOk rs = true →
      (analyze_patterns (.obj sym (some rs))).1 =
        .ok ⟨sym.getD "UNKNOWN", "chart_patterns",
          some (finalize (detect (closeValues rs))), none⟩) := by
  refine ⟨?_, ?_, ?_, ?_⟩
  · rintro rfl; rfl
  · intro hne hnone
    have he : rs.isEmpty = false := by
      cases rs with
      | nil => exact absurd rfl hne
      | cons a l => rfl
    have hc : closeColumnExists rs = false := by
      unfold closeColumnExists
      rw [List.any_eq_false]
      intro r hr
      rw [hnone r hr]
      simp
    simp [analyze_patterns, he, hc]
  · intro hne hc ha
    have he : rs.isEmpty = false := by
      cases rs with
      | nil => exact absurd rfl hne
      | cons a l => rfl
    simp [analyze_patterns, he, hc, ha]
  · intro hne hc ha
    have he : rs.isEmpty = false := by
      cases rs with
      | nil => exact absurd rfl hne
      | cons a l => rfl
    simp [analyze_patterns, he, hc, ha]

theorem claim5_amended_witness :
    (analyze_patterns (.obj none (some [⟨some CloseField.badStr⟩]))).1 =
      .ok (failureResult "UNKNOWN" "could not convert string to float") ∧
    (analyze_patterns (.obj none (some [⟨none⟩, ⟨none⟩]))).1 =
      .ok (failureResult "UNKNOWN" "Data must contain non-empty \x27close\x27 prices.") :=
  ⟨(claim5_amended none [⟨some CloseField.badStr⟩]).2.2.1
      (by decide) (by decide) (by decide),
   (claim5_amended none [⟨none⟩, ⟨none⟩]).2.1 (by decide) (by decide)⟩

/-! ## Claim C6 -/

/-- C6, counterexample: for `{}` (data absent) a failure AnalysisResult is
produced but the sink trace is empty — `send_to_output` is invoked only on
the success path, so the failure shape is neither logged, printed nor
republished. -/
theorem claim6_counterexample :
    analyze_patterns (.obj none none) =
      (.ok (failureResult "UNKNOWN" "Missing \x27data\x27 field."), []) := rfl

/-- C6 (amended): the result sink is invoked exactly on success results —
a success result is sent once (whence the one-element downstream batch),
while failure results are returned to the caller with no sink
invocation. -/
theorem claim6_amended (m : JMsg) :
    (analyze_patterns m).2 =
      match (analyze_patterns m).1 with
      | .ok r => if r.error = none then [r] else []
      | .error _ => [] :=
  analyze_trace m

/-! ## Claim C7 -/

/-- C7, counterexample: on the plateau series [0, 1, 1, 0] the peak finder
reports the plateau midpoint index 1, which is not a strict interior
maximum (close[1] is not strictly above close[2]); the strict no-plateau
characterisation of the claim is false. -/
theorem claim7_counterexample :
    find_peaks (toF [0, 1, 1, 0]) = [1] ∧ ¬ strictPeakAt (toF [0, 1, 1, 0]) 1 :=
  ⟨by decide, by decide⟩

/-- C7 (amended): on series with no equal adjacent samples the computed
peaks (resp. valleys) are exactly the strict interior local maxima (resp.
minima); for every series the boundary indices are never reported (each
reported j has 1 ≤ j and j + 1 < length); on a plateau strictly above its
neighbours the midpoint index is reported instead.  In particular
[1,3,1,3,1] has peaks {1,3} and valleys {2}. -/
theorem claim7_amended :
    (∀ x : List FVal, noAdjEq x → ∀ j, (j ∈ find_peaks x ↔ strictPeakAt x j)) ∧
    (∀ x : List FVal, noAdjEq x → ∀ j,
      (j ∈ find_peaks (x.map FVal.neg) ↔ strictValleyAt x j)) ∧
    (∀ (x : List FVal) (j : Nat), j ∈ find_peaks x → 1 ≤ j ∧ j + 1 < x.length) ∧
    find_peaks (toF [1, 3, 1, 3, 1]) = [1, 3] ∧
    find_peaks ((toF [1, 3, 1, 3, 1]).map FVal.neg) = [2] :=
  ⟨mem_find_peaks_iff, mem_find_valleys_iff, find_peaks_bounds, by decide, by decide⟩

theorem claim7_amended_witness :
    (2 ∈ find_peaks (toF [5, 1, 7, 1]) ↔ strictPeakAt (toF [5, 1, 7, 1]) 2) ∧
    2 ∈ find_peaks (toF [5, 1, 7, 1]) ∧
    (1 ∈ find_peaks ((toF [5, 1, 7, 1]).map FVal.neg) ↔
      strictValleyAt (toF [5, 1, 7, 1]) 1) ∧
    1 ∈ find_peaks ((toF [5, 1, 7, 1]).map FVal.neg) := by
  have h1 := claim7_amended.1 (toF [5, 1, 7, 1]) (by decide) 2
  have h2 := claim7_amended.2.1 (toF [5, 1, 7, 1]) (by decide) 1
  exact ⟨h1, h1.mpr (by decide), h2, h2.mpr (by decide)⟩

/-! ## Claim C8 -/

/-- C8, counterexample: analyze_patterns does NOT return normally on every
input: for a valid-JSON non-object value (e.g. a list), `data.get` raises
AttributeError inside the try block, and the except handler re-raises the
same error by evaluating `data.get` again, so the exception escapes. -/
theorem claim8_counterexample :
    (analyze_patterns .nonObj).1 = .error .attributeError := rfl

/-- C8 (amended): for every JSON object input, analyze_patterns returns
normally with a dict carrying the symbol (default UNKNOWN), the constant
analysis_type "chart_patterns", and exactly one of analysis_data / error
present; only non-object inputs make it raise. -/
theorem claim8_amended (sym : Option String) (data : Option (List Record)) :
    ∃ r, (analyze_patterns (.obj sym data)).1 = .ok r ∧
      r.symbol = sym.getD "UNKNOWN" ∧ r.analysis_type = "chart_patterns" ∧
      r.analysis_data.isSome = !r.error.isSome :=
  analyze_obj_ok sym data

/-! ## Claim C9 -/

/-- C9, counterexample: the three sink side effects are NOT independent:
they run sequentially inside one try block, so when the observability log
call fails, neither the stdout print nor the downstream publish is
attempted. -/
theorem claim9_counterexample :
    send_to_output ⟨false, true, false, false⟩ = ([SinkStep.dumps, SinkStep.logInfo], false) ∧
    SinkStep.printStdout ∉ (send_to_output ⟨false, true, false, false⟩).1 ∧
    SinkStep.publishQueue ∉ (send_to_output ⟨false, true, false, false⟩).1 :=
  ⟨rfl, by decide, by decide⟩

/-- C9 (amended): send_to_output never propagates a failure to its caller
and always attempts serialisation first, but the effects are sequential in
a single try block: the downstream publish is attempted iff serialisation,
the log call and the stdout print all succeeded. -/
theorem claim9_amended (env : SinkEnv) :
    (send_to_output env).2 = false ∧
    SinkStep.dumps ∈ (send_to_output env).1 ∧
    (SinkStep.publishQueue ∈ (send_to_output env).1 ↔
      env.dumpsFails = false ∧ env.logFails = false ∧ env.printFails = false) := by
  obtain ⟨a, b, c, d⟩ := env
  cases a <;> cases b <;> cases c <;> cases d <;> decide

/-! ## Claim C10 -/

end StockPatterns
